import Mathlib

/-!
Verification of the cumulus metadata-catalog record-access layer.

This file gives a shallow embedding of three components of the repository
and proves the frozen claims about them:

* the granule upsert protocol (`Granule._getMutableFieldNames`,
  `Granule._storeGranuleRecord`, `Granule.delete` from the granule model
  in the source corpus), including the DynamoDB conditional-update
  semantics that `_storeGranuleRecord` relies on;
* the generic relational access layer (`BasePgModel.get`, `search`,
  `searchWithUpdatedAtRange`, `exists`, `delete` from
  src/packages/db/src/types.ts);
* the Query Search Client (cursor/paging engine).  Its implementation is
  not part of the source corpus (only its tests are), so it is modelled
  from the specification, section 4.2.

Machine integers are modelled as `Nat` (timestamps never overflow in the
claims under study); fallible operations return `Except`; the mutable
DynamoDB table holding at most one granule per key is modelled as an
`Option` of the record for the single key under consideration.
-/

/-! ## Granule upsert protocol -/

/-- Granule status, the closed set used by the granule model. -/
inductive GranuleStatus
  | running
  | completed
  | failed
deriving DecidableEq, Repr

/-- A granule record as stored in / written to the granule table.
`createdAt` and `execution` are optional because the conditional
expressions of `_storeGranuleRecord` distinguish records on which these
attributes are absent; the remaining fields are always present.
`collectionId` and `productVolume` stand for the record fields that are
not on the running-status allow-list. -/
structure GranuleRecord where
  granuleId : String
  status : GranuleStatus
  createdAt : Option Nat
  updatedAt : Nat
  timestamp : Nat
  execution : Option String
  published : Bool
  collectionId : String
  productVolume : Nat
deriving DecidableEq, Repr

/-- The field names of a granule record seen as a JS object
(`Object.keys(record)`); optional fields appear only when defined. -/
def granuleObjectKeys (r : GranuleRecord) : List String :=
  ["granuleId", "status"]
    ++ (if r.createdAt.isSome then ["createdAt"] else [])
    ++ ["updatedAt", "timestamp"]
    ++ (if r.execution.isSome then ["execution"] else [])
    ++ ["published", "collectionId", "productVolume"]

/-- Source: `Granule._getMutableFieldNames` — for a record with status
`running` only the allow-list is mutable; otherwise every field of the
record is mutable. -/
def _getMutableFieldNames (record : GranuleRecord) : List String :=
  if record.status = .running then
    ["createdAt", "updatedAt", "timestamp", "status", "execution"]
  else
    granuleObjectKeys record

/-- A DynamoDB error, identified by its name as in the JS `error.name`. -/
structure DynError where
  name : String
deriving DecidableEq, Repr

/-- Substring test modelling the JS `String.prototype.includes`. -/
def strIncludes (s pat : String) : Bool :=
  (List.range (s.length + 1)).any (fun i => pat.toList.isPrefixOf (s.toList.drop i))

/-- Evaluation of the `ConditionExpression` built by `_storeGranuleRecord`:
`(attribute_not_exists(createdAt) or :createdAt >= #createdAt)`, with
`and #execution <> :execution` appended when the incoming record has
status `running` and a defined `execution`.  Modelled from DynamoDB
semantics: a comparison against an absent attribute is false, and a
reference to an expression value the record does not carry is a
validation error. -/
def evalConditionExpression (existing : Option GranuleRecord)
    (incoming : GranuleRecord) : Except DynError Bool :=
  match incoming.createdAt with
  | none => .error { name := "ValidationException" }
  | some ic =>
    let createdOk : Bool :=
      match existing with
      | none => true
      | some e =>
        match e.createdAt with
        | none => true
        | some ec => decide (ec ≤ ic)
    let execOk : Bool :=
      if incoming.status = .running ∧ incoming.execution.isSome then
        match existing, incoming.execution with
        | some e, some ie =>
          match e.execution with
          | some ee => decide (ee ≠ ie)
          | none => false
        | _, _ => false
      else true
    .ok (createdOk && execOk)

/-- How one field of the update expression built by
`_buildDocClientUpdateParams` applies to an optional attribute: an
undefined incoming value is skipped, a mutable field is SET to the
incoming value, and a non-mutable field is written with
`if_not_exists(existing, incoming)`.  Modelled from the spec:
`_buildDocClientUpdateParams` (the base Manager class) is not under src;
section 4.4 states that outside the allow-list existing persisted fields
are retained. -/
def setOptField (mfn : List String) (name : String)
    (ex inc : Option α) : Option α :=
  match inc with
  | none => ex
  | some v =>
    if mfn.contains name then some v
    else
      match ex with
      | some e => some e
      | none => some v

/-- As `setOptField` for an attribute that is always present on both the
existing and the incoming record (so `if_not_exists` keeps the existing
value). -/
def setReqField (mfn : List String) (name : String) (ex inc : α) : α :=
  if mfn.contains name then inc else ex

/-- The new item produced by a successful conditional update against an
existing item: the item key (`granuleId`) is never part of the update
expression, mutable fields are SET from the incoming record, other
fields are retained. -/
def applyDocClientUpdate (existing incoming : GranuleRecord)
    (mfn : List String) : GranuleRecord where
  granuleId := existing.granuleId
  status := setReqField mfn "status" existing.status incoming.status
  createdAt := setOptField mfn "createdAt" existing.createdAt incoming.createdAt
  updatedAt := setReqField mfn "updatedAt" existing.updatedAt incoming.updatedAt
  timestamp := setReqField mfn "timestamp" existing.timestamp incoming.timestamp
  execution := setOptField mfn "execution" existing.execution incoming.execution
  published := setReqField mfn "published" existing.published incoming.published
  collectionId := setReqField mfn "collectionId" existing.collectionId incoming.collectionId
  productVolume := setReqField mfn "productVolume" existing.productVolume incoming.productVolume

/-- The DynamoDB document-client `update` call issued by
`_storeGranuleRecord`: evaluate the condition expression against the
current table state for the key; on failure raise
`ConditionalCheckFailedException`; on success upsert (insert the incoming
record when no item exists for the key, otherwise apply the update
expression). -/
def dynamoDocClientUpdate (table : Option GranuleRecord)
    (incoming : GranuleRecord) (mfn : List String) :
    Except DynError GranuleRecord :=
  match evalConditionExpression table incoming with
  | .error e => .error e
  | .ok false => .error { name := "ConditionalCheckFailedException" }
  | .ok true =>
    match table with
    | none => .ok incoming
    | some existing => .ok (applyDocClientUpdate existing incoming mfn)

/-- Source: the catch block of `Granule._storeGranuleRecord` — a
conditional-check failure is logged and turned into an `undefined`
result, every other error is rethrown unchanged. -/
def handleGranuleUpdateError (table : Option GranuleRecord) (e : DynError) :
    Option GranuleRecord × Except DynError (Option GranuleRecord) :=
  (table,
    if strIncludes e.name "ConditionalCheckFailedException" then .ok none
    else .error e)

/-- Source: `Granule._storeGranuleRecord` — build the mutable field set
from the incoming record, issue the conditional update, and translate a
conditional-check failure into an `undefined` result.  Returns the table
state after the call together with the value returned (or error raised)
to the caller. -/
def _storeGranuleRecord (table : Option GranuleRecord)
    (incoming : GranuleRecord) :
    Option GranuleRecord × Except DynError (Option GranuleRecord) :=
  match dynamoDocClientUpdate table incoming (_getMutableFieldNames incoming) with
  | .ok updated => (some updated, .ok (some updated))
  | .error e => handleGranuleUpdateError table e

/-- The distinguished error raised by `Granule.delete` on a published
granule (`DeletePublishedGranule`, the `PreconditionFailed` case of the
spec's error taxonomy). -/
inductive GranuleDeleteError
  | deletePublishedGranule
deriving DecidableEq, Repr

/-- Source: `Granule._deleteRecord` — remove the record with the
granule's `granuleId` from the table. -/
def _deleteRecord (table : Option GranuleRecord) (granule : GranuleRecord) :
    Option GranuleRecord :=
  match table with
  | none => none
  | some item => if item.granuleId = granule.granuleId then none else some item

/-- Source: `Granule.delete` — throw `DeletePublishedGranule` when the
granule is published, before any store mutation; otherwise delete the
record.  Returns the table state after the call and the outcome. -/
def granuleDelete (table : Option GranuleRecord) (granule : GranuleRecord) :
    Option GranuleRecord × Except GranuleDeleteError Unit :=
  if granule.published then (table, .error .deletePublishedGranule)
  else (_deleteRecord table granule, .ok ())

/-! ## Helper instances and lemmas for the granule protocol -/

instance {ε α : Type} [DecidableEq ε] [DecidableEq α] : DecidableEq (Except ε α) := fun a b =>
  match a, b with
  | .ok x, .ok y =>
    if h : x = y then isTrue (by rw [h]) else isFalse (by intro hc; cases hc; exact h rfl)
  | .error x, .error y =>
    if h : x = y then isTrue (by rw [h]) else isFalse (by intro hc; cases hc; exact h rfl)
  | .ok _, .error _ => isFalse (by intro hc; cases hc)
  | .error _, .ok _ => isFalse (by intro hc; cases hc)

theorem strIncludes_ccf_self :
    strIncludes "ConditionalCheckFailedException" "ConditionalCheckFailedException" = true := by
  decide

theorem storeGranuleRecord_of_cond_false (table : Option GranuleRecord)
    (r : GranuleRecord) (h : evalConditionExpression table r = .ok false) :
    _storeGranuleRecord table r = (table, .ok none) := by
  unfold _storeGranuleRecord dynamoDocClientUpdate
  rw [h]
  simp [handleGranuleUpdateError, strIncludes_ccf_self]

theorem storeGranuleRecord_of_cond_true (e r : GranuleRecord)
    (h : evalConditionExpression (some e) r = .ok true) :
    _storeGranuleRecord (some e) r =
      (some (applyDocClientUpdate e r (_getMutableFieldNames r)),
       .ok (some (applyDocClientUpdate e r (_getMutableFieldNames r)))) := by
  unfold _storeGranuleRecord dynamoDocClientUpdate
  rw [h]

theorem cond_false_of_stale (e r : GranuleRecord) (ic ec : Nat)
    (hic : r.createdAt = some ic) (hec : e.createdAt = some ec) (h : ic < ec) :
    evalConditionExpression (some e) r = .ok false := by
  have hd : decide (ec ≤ ic) = false := decide_eq_false (by omega)
  simp [evalConditionExpression, hic, hec, hd]

theorem cond_false_of_exec_dup (e r : GranuleRecord) (arn : String) (ic : Nat)
    (hrs : r.status = .running) (hre : r.execution = some arn)
    (hee : e.execution = none ∨ e.execution = some arn)
    (hic : r.createdAt = some ic) :
    evalConditionExpression (some e) r = .ok false := by
  rcases hee with hee | hee <;> simp [evalConditionExpression, hic, hrs, hre, hee]

theorem getMutableFieldNames_contains_status (r : GranuleRecord) :
    (_getMutableFieldNames r).contains "status" = true := by
  unfold _getMutableFieldNames granuleObjectKeys
  by_cases h : r.status = .running
  · rw [if_pos h]; rfl
  · rw [if_neg h]; rfl

theorem applyUpdate_status (e r : GranuleRecord) (mfn : List String)
    (h : mfn.contains "status" = true) :
    (applyDocClientUpdate e r mfn).status = r.status := by
  show setReqField mfn "status" e.status r.status = r.status
  unfold setReqField
  rw [h]
  rfl

theorem strIncludes_validation_not_ccf :
    strIncludes "ValidationException" "ConditionalCheckFailedException" = false := by
  decide

theorem storeGranuleRecord_of_no_createdAt (table : Option GranuleRecord)
    (r : GranuleRecord) (hr : r.createdAt = none) :
    _storeGranuleRecord table r = (table, .error { name := "ValidationException" }) := by
  unfold _storeGranuleRecord dynamoDocClientUpdate evalConditionExpression
  rw [hr]
  simp [handleGranuleUpdateError, strIncludes_validation_not_ccf]

theorem cond_true_of (e r : GranuleRecord) (ic ec : Nat)
    (hic : r.createdAt = some ic) (hec : e.createdAt = some ec) (hle : ec ≤ ic)
    (hexec : ¬(r.status = .running ∧ r.execution.isSome = true) ∨
      (∃ arnIn arnEx, r.execution = some arnIn ∧ e.execution = some arnEx ∧ arnEx ≠ arnIn)) :
    evalConditionExpression (some e) r = .ok true := by
  rcases hexec with h | ⟨arnIn, arnEx, hre, hee, hne⟩
  · simp [evalConditionExpression, hic, hec, hle, h]
  · by_cases hc : r.status = .running ∧ r.execution.isSome = true
    · simp [evalConditionExpression, hic, hec, hle, hc, hre, hee, hne]
    · simp [evalConditionExpression, hic, hec, hle, hc]

/-! ## Claim theorems: granule upsert protocol -/

/-- Existing persisted granule used by the counterexample to claim C1:
status `completed`, `created_at` 5, execution reference "execution-arn-1". -/
def c1ExistingCompleted : GranuleRecord :=
  { granuleId := "granule-1", status := .completed, createdAt := some 5, updatedAt := 5,
    timestamp := 5, execution := some "execution-arn-1", published := false,
    collectionId := "collection-1", productVolume := 10 }

/-- Incoming upsert used by the counterexample to claim C1: status
`running`, the same `created_at`, a different execution reference. -/
def c1IncomingRunning : GranuleRecord :=
  { granuleId := "granule-1", status := .running, createdAt := some 5, updatedAt := 6,
    timestamp := 6, execution := some "execution-arn-2", published := false,
    collectionId := "collection-1", productVolume := 10 }

/-- C1, counterexample: the claim "for every persisted granule whose
status is completed, an upsert of a record for the same key with status
running leaves the persisted status completed" is false on the code: an
incoming `running` record whose `created_at` does not regress and whose
execution reference differs from the stored one passes the condition
expression, and since `status` is on the running-status allow-list the
persisted status becomes `running`. -/
theorem granule_status_monotonicity_counterexample :
    c1ExistingCompleted.status = .completed ∧
    c1IncomingRunning.status = .running ∧
    (_storeGranuleRecord (some c1ExistingCompleted) c1IncomingRunning).1.map
        (fun g => g.status) ≠ some .completed ∧
    (_storeGranuleRecord (some c1ExistingCompleted) c1IncomingRunning).1.map
        (fun g => g.status) = some .running := by
  decide

/-- C1, amended: over an existing `completed` granule, an upsert with
status `running` leaves the persisted status `completed` exactly when the
conditional write is rejected — when the incoming `created_at` is
strictly older than the stored one, or when the incoming record carries
an execution reference and the stored execution reference is missing or
equal to it; otherwise the running upsert overwrites the status.  Over an
existing `running` granule, an upsert with status `completed` whose
`created_at` does not regress sets the persisted status to `completed`. -/
theorem granule_status_monotonicity_amended (e r : GranuleRecord) (ic ec : Nat)
    (hic : r.createdAt = some ic) (hec : e.createdAt = some ec) :
    (e.status = .completed → r.status = .running →
      ((ic < ec ∨ (∃ arn, r.execution = some arn ∧ (e.execution = none ∨ e.execution = some arn)) →
          _storeGranuleRecord (some e) r = (some e, .ok none)) ∧
       (ec ≤ ic →
          (r.execution = none ∨
            ∃ arnIn arnEx, r.execution = some arnIn ∧ e.execution = some arnEx ∧ arnEx ≠ arnIn) →
          (_storeGranuleRecord (some e) r).1.map (fun g => g.status) = some .running))) ∧
    (e.status = .running → r.status = .completed → ec ≤ ic →
      (_storeGranuleRecord (some e) r).1.map (fun g => g.status) = some .completed) := by
  constructor
  · intro _ hrr
    constructor
    · intro hrej
      rcases hrej with hlt | ⟨arn, hre, hee⟩
      · exact storeGranuleRecord_of_cond_false _ r (cond_false_of_stale e r ic ec hic hec hlt)
      · exact storeGranuleRecord_of_cond_false _ r
          (cond_false_of_exec_dup e r arn ic hrr hre hee hic)
    · intro hle hacc
      have hcond : evalConditionExpression (some e) r = .ok true := by
        rcases hacc with hre | ⟨arnIn, arnEx, hre, hee, hne⟩
        · exact cond_true_of e r ic ec hic hec hle (Or.inl (by simp [hre]))
        · exact cond_true_of e r ic ec hic hec hle (Or.inr ⟨arnIn, arnEx, hre, hee, hne⟩)
      rw [storeGranuleRecord_of_cond_true e r hcond]
      simp [applyUpdate_status e r _ (getMutableFieldNames_contains_status r), hrr]
  · intro hes hrc hle
    have hcond : evalConditionExpression (some e) r = .ok true := by
      refine cond_true_of e r ic ec hic hec hle (Or.inl ?_)
      rintro ⟨h1, -⟩
      rw [hrc] at h1
      cases h1
    rw [storeGranuleRecord_of_cond_true e r hcond]
    simp [applyUpdate_status e r _ (getMutableFieldNames_contains_status r), hrc]

/-- C3: a granule upsert whose conditional write is rejected by the
store returns an `undefined` result and raises nothing (any error whose
name includes `ConditionalCheckFailedException` is swallowed into
`undefined`), while every other store error from the write propagates
unwrapped. -/
theorem granule_conflicting_write_silent_noop (table : Option GranuleRecord)
    (r : GranuleRecord) (e : DynError) :
    (dynamoDocClientUpdate table r (_getMutableFieldNames r) =
        .error { name := "ConditionalCheckFailedException" } →
      _storeGranuleRecord table r = (table, .ok none)) ∧
    (strIncludes e.name "ConditionalCheckFailedException" = true →
      handleGranuleUpdateError table e = (table, .ok none)) ∧
    (strIncludes e.name "ConditionalCheckFailedException" = false →
      handleGranuleUpdateError table e = (table, .error e)) := by
  refine ⟨fun h => ?_, fun h => ?_, fun h => ?_⟩
  · unfold _storeGranuleRecord
    rw [h]
    simp [handleGranuleUpdateError, strIncludes_ccf_self]
  · unfold handleGranuleUpdateError
    rw [h]
    rfl
  · unfold handleGranuleUpdateError
    rw [h]
    rfl

/-- C4: for every existing granule record and every incoming upsert, the
write is applied only if the existing record has no `created_at` or the
incoming `created_at` is greater than or equal to the existing one; an
incoming record whose `created_at` is strictly older is rejected as a
silent no-op, leaving the stored record unchanged, regardless of status. -/
theorem granule_created_at_guard (e r : GranuleRecord) :
    (∀ g, (_storeGranuleRecord (some e) r).2 = .ok (some g) →
      e.createdAt = none ∨
        ∃ ic ec, r.createdAt = some ic ∧ e.createdAt = some ec ∧ ec ≤ ic) ∧
    (∀ ic ec, r.createdAt = some ic → e.createdAt = some ec → ic < ec →
      _storeGranuleRecord (some e) r = (some e, .ok none)) := by
  constructor
  · intro g hg
    cases hr : r.createdAt with
    | none =>
      rw [storeGranuleRecord_of_no_createdAt (some e) r hr] at hg
      cases hg
    | some ic =>
      cases he : e.createdAt with
      | none => exact Or.inl rfl
      | some ec =>
        by_cases hle : ec ≤ ic
        · exact Or.inr ⟨ic, ec, rfl, rfl, hle⟩
        · rw [storeGranuleRecord_of_cond_false _ r
            (cond_false_of_stale e r ic ec hr he (by omega))] at hg
          cases hg
  · intro ic ec hic hec hlt
    exact storeGranuleRecord_of_cond_false _ r (cond_false_of_stale e r ic ec hic hec hlt)

/-- C6: deleting a granule with `published = true` fails with the
distinguished `DeletePublishedGranule` error before any store mutation,
leaving the table unchanged; a granule with `published = false` is
deleted. -/
theorem granule_delete_published_guard (table : Option GranuleRecord)
    (g item : GranuleRecord) :
    (g.published = true → granuleDelete table g = (table, .error .deletePublishedGranule)) ∧
    (g.published = false → granuleDelete table g = (_deleteRecord table g, .ok ())) ∧
    (g.published = false → table = some item → item.granuleId = g.granuleId →
      granuleDelete table g = (none, .ok ())) := by
  refine ⟨fun h => ?_, fun h => ?_, fun h ht hid => ?_⟩
  · unfold granuleDelete
    rw [h]
    rfl
  · unfold granuleDelete
    rw [h]
    rfl
  · simp [granuleDelete, _deleteRecord, h, ht, hid]

/-- C9: a persisted `running` granule with execution reference `arn`
receiving an upsert with status `running` and the same execution
reference is rejected by the conditional write and left unchanged, with
no error raised to the caller. -/
theorem granule_duplicate_running_noop (e r : GranuleRecord) (arn : String) (ic : Nat)
    (hes : e.status = .running) (hrs : r.status = .running)
    (hee : e.execution = some arn) (hre : r.execution = some arn)
    (hic : r.createdAt = some ic) :
    _storeGranuleRecord (some e) r = (some e, .ok none) :=
  storeGranuleRecord_of_cond_false _ r
    (cond_false_of_exec_dup e r arn ic hrs hre (Or.inr hee) hic)

/-- C10: the allow-list of fields writable by an incoming upsert with
status `running` is exactly createdAt, updatedAt, timestamp, status and
execution; for an incoming record with any other status every field of
the record is writable; and since `status` is itself writable, any
conditional update that passes the guards overwrites the stored status
with the incoming one. -/
theorem granule_mutable_field_allow_list (e r : GranuleRecord) :
    (r.status = .running →
      _getMutableFieldNames r = ["createdAt", "updatedAt", "timestamp", "status", "execution"]) ∧
    (r.status ≠ .running → _getMutableFieldNames r = granuleObjectKeys r) ∧
    (∀ g, dynamoDocClientUpdate (some e) r (_getMutableFieldNames r) = .ok g →
      g.status = r.status) := by
  refine ⟨fun h => ?_, fun h => ?_, fun g hg => ?_⟩
  · unfold _getMutableFieldNames
    rw [if_pos h]
  · unfold _getMutableFieldNames
    rw [if_neg h]
  · unfold dynamoDocClientUpdate at hg
    cases hc : evalConditionExpression (some e) r with
    | error err => rw [hc] at hg; cases hg
    | ok b =>
      cases b with
      | false => rw [hc] at hg; cases hg
      | true =>
        rw [hc] at hg
        simp only [] at hg
        cases hg
        exact applyUpdate_status e r _ (getMutableFieldNames_contains_status r)

/-! ## Witnesses: granule upsert protocol -/

/-- Witness record for C1 (existing `running` granule). -/
def w1Existing : GranuleRecord :=
  { granuleId := "granule-w1", status := .running, createdAt := some 4, updatedAt := 4,
    timestamp := 4, execution := some "arn-w1-a", published := false,
    collectionId := "collection-w1", productVolume := 1 }

/-- Witness record for C1 (incoming `completed` upsert). -/
def w1Incoming : GranuleRecord :=
  { granuleId := "granule-w1", status := .completed, createdAt := some 7, updatedAt := 7,
    timestamp := 7, execution := some "arn-w1-b", published := false,
    collectionId := "collection-w1", productVolume := 1 }

/-- Witness for C1's amended theorem at a concrete input. -/
theorem granule_status_monotonicity_amended_witness :
    w1Incoming.createdAt = some 7 ∧ w1Existing.createdAt = some 4 ∧
    w1Existing.status = .running ∧ w1Incoming.status = .completed ∧ 4 ≤ 7 ∧
    (_storeGranuleRecord (some w1Existing) w1Incoming).1.map (fun g => g.status) =
      some .completed :=
  ⟨rfl, rfl, rfl, rfl, by omega,
   (granule_status_monotonicity_amended w1Existing w1Incoming 7 4 rfl rfl).2 rfl rfl (by omega)⟩

/-- Witness records for C3 (duplicate running delivery, rejected write). -/
def w3Existing : GranuleRecord :=
  { granuleId := "granule-w3", status := .running, createdAt := some 3, updatedAt := 3,
    timestamp := 3, execution := some "arn-w3", published := false,
    collectionId := "collection-w3", productVolume := 2 }

/-- Witness record for C3 (incoming duplicate). -/
def w3Incoming : GranuleRecord :=
  { granuleId := "granule-w3", status := .running, createdAt := some 3, updatedAt := 5,
    timestamp := 5, execution := some "arn-w3", published := false,
    collectionId := "collection-w3", productVolume := 2 }

/-- Witness for C3 at a concrete input: a rejected conditional write is
an undefined-result no-op and a transport error propagates unchanged. -/
theorem granule_conflicting_write_silent_noop_witness :
    dynamoDocClientUpdate (some w3Existing) w3Incoming (_getMutableFieldNames w3Incoming) =
      .error { name := "ConditionalCheckFailedException" } ∧
    _storeGranuleRecord (some w3Existing) w3Incoming = (some w3Existing, .ok none) ∧
    strIncludes "TransportError" "ConditionalCheckFailedException" = false ∧
    handleGranuleUpdateError (some w3Existing) { name := "TransportError" } =
      (some w3Existing, .error { name := "TransportError" }) :=
  ⟨by decide,
   (granule_conflicting_write_silent_noop (some w3Existing) w3Incoming
     { name := "TransportError" }).1 (by decide),
   by decide,
   (granule_conflicting_write_silent_noop (some w3Existing) w3Incoming
     { name := "TransportError" }).2.2 (by decide)⟩

/-- Witness record for C4 (existing granule with newer `created_at`). -/
def w4Existing : GranuleRecord :=
  { granuleId := "granule-w4", status := .completed, createdAt := some 9, updatedAt := 9,
    timestamp := 9, execution := some "arn-w4-a", published := false,
    collectionId := "collection-w4", productVolume := 3 }

/-- Witness record for C4 (stale incoming upsert). -/
def w4Incoming : GranuleRecord :=
  { granuleId := "granule-w4", status := .failed, createdAt := some 2, updatedAt := 12,
    timestamp := 12, execution := some "arn-w4-b", published := false,
    collectionId := "collection-w4", productVolume := 3 }

/-- Witness for C4 at a concrete input. -/
theorem granule_created_at_guard_witness :
    w4Incoming.createdAt = some 2 ∧ w4Existing.createdAt = some 9 ∧ 2 < 9 ∧
    _storeGranuleRecord (some w4Existing) w4Incoming = (some w4Existing, .ok none) :=
  ⟨rfl, rfl, by omega,
   (granule_created_at_guard w4Existing w4Incoming).2 2 9 rfl rfl (by omega)⟩

/-- Witness record for C6 (published granule). -/
def w6Published : GranuleRecord :=
  { granuleId := "granule-w6-p", status := .completed, createdAt := some 1, updatedAt := 1,
    timestamp := 1, execution := some "arn-w6", published := true,
    collectionId := "collection-w6", productVolume := 4 }

/-- Witness record for C6 (unpublished granule). -/
def w6Unpublished : GranuleRecord :=
  { granuleId := "granule-w6-u", status := .completed, createdAt := some 1, updatedAt := 1,
    timestamp := 1, execution := some "arn-w6", published := false,
    collectionId := "collection-w6", productVolume := 4 }

/-- Witness for C6 at concrete inputs. -/
theorem granule_delete_published_guard_witness :
    w6Published.published = true ∧
    granuleDelete (some w6Published) w6Published =
      (some w6Published, .error .deletePublishedGranule) ∧
    w6Unpublished.published = false ∧
    granuleDelete (some w6Unpublished) w6Unpublished = (none, .ok ()) :=
  ⟨rfl,
   (granule_delete_published_guard (some w6Published) w6Published w6Published).1 rfl,
   rfl,
   (granule_delete_published_guard (some w6Unpublished) w6Unpublished w6Unpublished).2.2
     rfl rfl rfl⟩

/-- Witness record for C9 (existing running granule). -/
def w9Existing : GranuleRecord :=
  { granuleId := "granule-w9", status := .running, createdAt := some 5, updatedAt := 5,
    timestamp := 5, execution := some "arn-w9", published := false,
    collectionId := "collection-w9", productVolume := 5 }

/-- Witness record for C9 (incoming duplicate running delivery). -/
def w9Incoming : GranuleRecord :=
  { granuleId := "granule-w9", status := .running, createdAt := some 6, updatedAt := 8,
    timestamp := 8, execution := some "arn-w9", published := false,
    collectionId := "collection-w9", productVolume := 5 }

/-- Witness for C9 at a concrete input. -/
theorem granule_duplicate_running_noop_witness :
    w9Existing.status = .running ∧ w9Incoming.status = .running ∧
    w9Existing.execution = some "arn-w9" ∧ w9Incoming.execution = some "arn-w9" ∧
    w9Incoming.createdAt = some 6 ∧
    _storeGranuleRecord (some w9Existing) w9Incoming = (some w9Existing, .ok none) :=
  ⟨rfl, rfl, rfl, rfl, rfl,
   granule_duplicate_running_noop w9Existing w9Incoming "arn-w9" 6 rfl rfl rfl rfl rfl⟩

/-- Witness record for C10 (existing completed granule). -/
def w10Existing : GranuleRecord :=
  { granuleId := "granule-w10", status := .completed, createdAt := some 3, updatedAt := 3,
    timestamp := 3, execution := some "arn-w10-a", published := false,
    collectionId := "collection-w10", productVolume := 6 }

/-- Witness record for C10 (incoming running upsert, different execution). -/
def w10Incoming : GranuleRecord :=
  { granuleId := "granule-w10", status := .running, createdAt := some 3, updatedAt := 4,
    timestamp := 4, execution := some "arn-w10-b", published := false,
    collectionId := "collection-w10", productVolume := 7 }

/-- The record produced by the conditional update in the C10 witness. -/
def w10Result : GranuleRecord :=
  applyDocClientUpdate w10Existing w10Incoming (_getMutableFieldNames w10Incoming)

/-- Witness for C10 at a concrete input. -/
theorem granule_mutable_field_allow_list_witness :
    w10Incoming.status = .running ∧
    _getMutableFieldNames w10Incoming =
      ["createdAt", "updatedAt", "timestamp", "status", "execution"] ∧
    dynamoDocClientUpdate (some w10Existing) w10Incoming (_getMutableFieldNames w10Incoming) =
      .ok w10Result ∧
    w10Result.status = w10Incoming.status :=
  ⟨rfl,
   (granule_mutable_field_allow_list w10Existing w10Incoming).1 rfl,
   by decide,
   (granule_mutable_field_allow_list w10Existing w10Incoming).2.2 w10Result (by decide)⟩

/-! ## Base record model (BasePgModel, src/packages/db/src/types.ts) -/

namespace BasePgModel

/-- A persisted relational record: the store-generated surrogate id and
`updated_at` timestamp plus the caller-supplied columns, modelled as an
association list from column name to value. -/
structure PgRecord where
  cumulus_id : Nat
  updated_at : Nat
  fields : List (String × Nat)
deriving DecidableEq, Repr

/-- Knex `.where(params)` semantics for an exact-match partial record:
every column named in the filter must be present with the given value. -/
def matchesParams (r : PgRecord) (params : List (String × Nat)) : Bool :=
  params.all (fun kv => r.fields.lookup kv.1 == some kv.2)

/-- Errors of the relational layer: `RecordDoesNotExist` is the
distinguished `NotFound` condition; other store errors carry a name. -/
inductive PgError
  | recordDoesNotExist (msg : String)
  | storeError (name : String)
deriving DecidableEq, Repr

/-- The JS `error instanceof RecordDoesNotExist` test. -/
def isRecordDoesNotExist : PgError → Bool
  | .recordDoesNotExist _ => true
  | _ => false

/-- Source: `BasePgModel.get` — `.where(params).first()`, throwing
`RecordDoesNotExist` when the result is undefined. -/
def get (table : List PgRecord) (params : List (String × Nat)) : Except PgError PgRecord :=
  match table.find? (fun r => matchesParams r params) with
  | some r => .ok r
  | none => .error (.recordDoesNotExist "Record does not exist.")

/-- Source: `BasePgModel.search` — all records matching the filter, in
table order. -/
def search (table : List PgRecord) (params : List (String × Nat)) : List PgRecord :=
  table.filter (fun r => matchesParams r params)

/-- Source: the catch block of `BasePgModel.exists` applied to the
outcome of `get`: success maps to true, `RecordDoesNotExist` maps to
false, any other error is rethrown. -/
def existsOutcome (o : Except PgError PgRecord) : Except PgError Bool :=
  match o with
  | .ok _ => .ok true
  | .error e => if isRecordDoesNotExist e then .ok false else .error e

/-- Source: `BasePgModel.exists` (named `existsRecord` because `exists`
is a Lean keyword). -/
def existsRecord (table : List PgRecord) (params : List (String × Nat)) :
    Except PgError Bool :=
  existsOutcome (get table params)

/-- Source: `BasePgModel.delete` — `.where(params).del()`, returning the
table without the matching rows together with the number removed. -/
def delete (table : List PgRecord) (params : List (String × Nat)) :
    List PgRecord × Nat :=
  (table.filter (fun r => !(matchesParams r params)),
   (table.filter (fun r => matchesParams r params)).length)

/-- The `updatedAtParams` argument of `searchWithUpdatedAtRange`. -/
structure UpdatedAtRange where
  updatedAtFrom : Option Nat
  updatedAtTo : Option Nat
deriving DecidableEq, Repr

/-- Source: `BasePgModel.searchWithUpdatedAtRange` — the filter plus,
only when at least one bound is supplied, a `whereBetween` on
`updated_at` with the absent bound defaulted (`from` to the epoch, `to`
to the current time `now`). -/
def searchWithUpdatedAtRange (now : Nat) (table : List PgRecord)
    (params : List (String × Nat)) (range : UpdatedAtRange) : List PgRecord :=
  table.filter (fun r =>
    matchesParams r params &&
    (if range.updatedAtFrom.isSome || range.updatedAtTo.isSome then
        decide (range.updatedAtFrom.getD 0 ≤ r.updated_at) &&
          decide (r.updated_at ≤ range.updatedAtTo.getD now)
     else true))

/-- Definition following the words of the spec for claim C8: the result
is bounded by `updated_at` in the inclusive range with `from` defaulting
to the epoch and `to` defaulting to the current time, in every case —
including when both bounds are omitted. -/
def searchWithUpdatedAtRangeSpec (now : Nat) (table : List PgRecord)
    (params : List (String × Nat)) (range : UpdatedAtRange) : List PgRecord :=
  table.filter (fun r =>
    matchesParams r params &&
    (decide (range.updatedAtFrom.getD 0 ≤ r.updated_at) &&
      decide (r.updated_at ≤ range.updatedAtTo.getD now)))

end BasePgModel

theorem basePg_exists_false_of_no_match (table : List BasePgModel.PgRecord)
    (params : List (String × Nat))
    (h : ∀ x ∈ table, BasePgModel.matchesParams x params = false) :
    BasePgModel.existsRecord table params = .ok false := by
  unfold BasePgModel.existsRecord BasePgModel.get
  have hf : table.find? (fun r => BasePgModel.matchesParams r params) = none := by
    rw [List.find?_eq_none]
    intro x hx
    simp [h x hx]
  rw [hf]
  rfl

/-- C7: `exists` returns true when `get` succeeds, false when `get`
fails with the `NotFound` condition (both when no matching row exists
and after the matching rows are deleted), and propagates any other error
unchanged. -/
theorem basePgModel_exists_never_throws_not_found (table : List BasePgModel.PgRecord)
    (params : List (String × Nat)) (r : BasePgModel.PgRecord) (msg : String)
    (e : BasePgModel.PgError) :
    (BasePgModel.get table params = .ok r →
      BasePgModel.existsRecord table params = .ok true) ∧
    (BasePgModel.get table params = .error (.recordDoesNotExist msg) →
      BasePgModel.existsRecord table params = .ok false) ∧
    ((∀ x ∈ table, BasePgModel.matchesParams x params = false) →
      BasePgModel.existsRecord table params = .ok false) ∧
    (BasePgModel.existsRecord (BasePgModel.delete table params).1 params = .ok false) ∧
    (BasePgModel.isRecordDoesNotExist e = false →
      BasePgModel.existsOutcome (.error e) = .error e) := by
  refine ⟨fun h => ?_, fun h => ?_, fun h => ?_, ?_, fun h => ?_⟩
  · unfold BasePgModel.existsRecord
    rw [h]
    rfl
  · unfold BasePgModel.existsRecord
    rw [h]
    rfl
  · exact basePg_exists_false_of_no_match table params h
  · refine basePg_exists_false_of_no_match _ params ?_
    intro x hx
    unfold BasePgModel.delete at hx
    simp only [List.mem_filter] at hx
    simpa using hx.2
  · simp [BasePgModel.existsOutcome, h]

/-- Witness table for C7. -/
def w7Record : BasePgModel.PgRecord :=
  { cumulus_id := 1, updated_at := 5, fields := [("granule_id", 7)] }

/-- Witness for C7 at concrete inputs. -/
theorem basePgModel_exists_never_throws_not_found_witness :
    BasePgModel.get [w7Record] [("granule_id", 7)] = .ok w7Record ∧
    BasePgModel.existsRecord [w7Record] [("granule_id", 7)] = .ok true ∧
    BasePgModel.get [w7Record] [("granule_id", 8)] =
      .error (.recordDoesNotExist "Record does not exist.") ∧
    BasePgModel.existsRecord [w7Record] [("granule_id", 8)] = .ok false ∧
    BasePgModel.existsRecord (BasePgModel.delete [w7Record] [("granule_id", 7)]).1
      [("granule_id", 7)] = .ok false ∧
    BasePgModel.isRecordDoesNotExist (.storeError "ConnectionError") = false ∧
    BasePgModel.existsOutcome (.error (.storeError "ConnectionError")) =
      .error (.storeError "ConnectionError") :=
  ⟨by decide,
   (basePgModel_exists_never_throws_not_found [w7Record] [("granule_id", 7)] w7Record
     "Record does not exist." (.storeError "ConnectionError")).1 (by decide),
   by decide,
   (basePgModel_exists_never_throws_not_found [w7Record] [("granule_id", 8)] w7Record
     "Record does not exist." (.storeError "ConnectionError")).2.1 (by decide),
   (basePgModel_exists_never_throws_not_found [w7Record] [("granule_id", 7)] w7Record
     "Record does not exist." (.storeError "ConnectionError")).2.2.2.1,
   by decide,
   (basePgModel_exists_never_throws_not_found [w7Record] [("granule_id", 7)] w7Record
     "Record does not exist." (.storeError "ConnectionError")).2.2.2.2 (by decide)⟩

/-- Counterexample record for C8: a record matching the filter whose
`updated_at` (11) lies after the current time (10). -/
def c8Record : BasePgModel.PgRecord :=
  { cumulus_id := 1, updated_at := 11, fields := [("bucket", 3)] }

/-- C8, counterexample: with both bounds omitted the code applies no
`updated_at` constraint at all, so a matching record whose `updated_at`
is later than the current time is returned — while the claimed
equivalent range [epoch, now] excludes it.  Omitting both bounds is
therefore not equivalent to the range [epoch, now]. -/
theorem basePgModel_searchWithUpdatedAtRange_counterexample :
    BasePgModel.searchWithUpdatedAtRange 10 [c8Record] [] ⟨none, none⟩ = [c8Record] ∧
    BasePgModel.searchWithUpdatedAtRangeSpec 10 [c8Record] [] ⟨none, none⟩ = [] ∧
    BasePgModel.searchWithUpdatedAtRange 10 [c8Record] [] ⟨none, none⟩ ≠
      BasePgModel.searchWithUpdatedAtRangeSpec 10 [c8Record] [] ⟨none, none⟩ := by
  decide

/-- C8, amended: when at least one bound is supplied the result is the
set of records matching the filter whose `updated_at` lies in
[from, to] inclusive, each absent bound defaulted independently (`from`
to the epoch, `to` to the current time); when both bounds are omitted no
`updated_at` constraint is applied and the call is plain `search`. -/
theorem basePgModel_searchWithUpdatedAtRange_amended (now : Nat)
    (table : List BasePgModel.PgRecord) (params : List (String × Nat))
    (range : BasePgModel.UpdatedAtRange) :
    ((range.updatedAtFrom.isSome || range.updatedAtTo.isSome) = true →
      BasePgModel.searchWithUpdatedAtRange now table params range =
        BasePgModel.searchWithUpdatedAtRangeSpec now table params range) ∧
    (range.updatedAtFrom = none → range.updatedAtTo = none →
      BasePgModel.searchWithUpdatedAtRange now table params range =
        BasePgModel.search table params) := by
  constructor
  · intro h
    unfold BasePgModel.searchWithUpdatedAtRange BasePgModel.searchWithUpdatedAtRangeSpec
    refine List.filter_congr ?_
    intro x hx
    rw [h]
    rfl
  · intro h1 h2
    unfold BasePgModel.searchWithUpdatedAtRange BasePgModel.search
    refine List.filter_congr ?_
    intro x hx
    simp [h1, h2]

/-- Witness record for C8 inside the supplied range. -/
def w8RecordIn : BasePgModel.PgRecord :=
  { cumulus_id := 2, updated_at := 5, fields := [] }

/-- Witness record for C8 outside the supplied range. -/
def w8RecordOut : BasePgModel.PgRecord :=
  { cumulus_id := 3, updated_at := 3, fields := [] }

/-- Witness for C8's amended theorem at concrete inputs. -/
theorem basePgModel_searchWithUpdatedAtRange_amended_witness :
    ((some 4 : Option Nat).isSome || (none : Option Nat).isSome) = true ∧
    BasePgModel.searchWithUpdatedAtRange 10 [w8RecordIn, w8RecordOut] [] ⟨some 4, none⟩ =
      BasePgModel.searchWithUpdatedAtRangeSpec 10 [w8RecordIn, w8RecordOut] [] ⟨some 4, none⟩ ∧
    BasePgModel.searchWithUpdatedAtRange 10 [w8RecordIn, w8RecordOut] [] ⟨none, none⟩ =
      BasePgModel.search [w8RecordIn, w8RecordOut] [] :=
  ⟨by decide,
   (basePgModel_searchWithUpdatedAtRange_amended 10 [w8RecordIn, w8RecordOut] []
     ⟨some 4, none⟩).1 (by decide),
   (basePgModel_searchWithUpdatedAtRange_amended 10 [w8RecordIn, w8RecordOut] []
     ⟨none, none⟩).2 rfl rfl⟩

/-! ## Query Search Client (cursor/paging engine) -/

namespace QuerySearchClient

/-- Modelled from the spec: the Query Search Client's state (section
4.2) — the held query is a parametrized, sorted query whose full logical
result is a list `all`; the client keeps a configurable batch size
`limit`, an internal buffer of not-yet-consumed records, a monotonically
increasing absolute offset into the logical result set, an exhaustion
flag (an empty batch means the sequence is exhausted and no further
store query is issued), and — for the fetch-counting part of the claims
— a log of the (OFFSET, LIMIT) pairs of the queries issued so far. -/
structure QueryState (R : Type) where
  offset : Nat
  buffer : List R
  exhausted : Bool
  fetchLog : List (Nat × Nat)
deriving DecidableEq, Repr

/-- The state of a freshly constructed client. -/
def initialState (R : Type) : QueryState R := ⟨0, [], false, []⟩

/-- Modelled from the spec: a triggered refill issues one query with
LIMIT=limit and OFFSET=current-offset against the store; the returned
batch replaces the buffer in full and the offset advances by the batch
size requested for that fetch. -/
def fetchRecords (all : List R) (limit : Nat) (s : QueryState R) : QueryState R :=
  { offset := s.offset + limit
    buffer := (all.drop s.offset).take limit
    exhausted := ((all.drop s.offset).take limit).isEmpty
    fetchLog := s.fetchLog ++ [(s.offset, limit)] }

/-- Modelled from the spec: the fill-if-empty logic shared by `peek` and
`shift` — when the buffer is empty and the client is not yet exhausted,
trigger exactly one fetch; otherwise leave the state unchanged. -/
def fillBuffer (all : List R) (limit : Nat) (s : QueryState R) : QueryState R :=
  match s.buffer, s.exhausted with
  | [], false => fetchRecords all limit s
  | _, _ => s

/-- Modelled from the spec: `peek()` returns the next record without
consuming it, or none when the result set is exhausted. -/
def peek (all : List R) (limit : Nat) (s : QueryState R) : Option R × QueryState R :=
  let t := fillBuffer all limit s
  (t.buffer.head?, t)

/-- Modelled from the spec: `shift()` returns and consumes the next
record, using the same fill-if-empty logic as `peek`. -/
def shift (all : List R) (limit : Nat) (s : QueryState R) : Option R × QueryState R :=
  let t := fillBuffer all limit s
  (t.buffer.head?, { t with buffer := t.buffer.tail })

/-- Run an arbitrary interleaving of operations (`true` is a `shift`
call, `false` a `peek` call), collecting each operation's result. -/
def runOps (all : List R) (limit : Nat) :
    List Bool → QueryState R → List (Bool × Option R) × QueryState R
  | [], s => ([], s)
  | op :: rest, s =>
    let step := if op then shift all limit s else peek all limit s
    let next := runOps all limit rest step.2
    ((op, step.1) :: next.1, next.2)

/-- The records returned by the successful `shift` calls of a run, in
order. -/
def shiftHits (outs : List (Bool × Option R)) : List R :=
  outs.filterMap (fun p => if p.1 then p.2 else none)

/-- The invariant tying a reachable client state to the number `c` of
records consumed so far: the buffer is the contiguous segment of the
logical result starting at position `c`; the offset is the batch size
times the number of fetches issued; the fetch log is one query with
LIMIT=limit at each multiple of the batch size; exhaustion implies
everything was consumed; and otherwise the offset accounts for the
consumed records plus the buffered ones (or the logical result has been
fetched to its end). -/
def Inv (all : List R) (limit c : Nat) (s : QueryState R) : Prop :=
  s.buffer = (all.drop c).take s.buffer.length ∧
  c ≤ all.length ∧
  s.offset = limit * s.fetchLog.length ∧
  s.fetchLog = (List.range s.fetchLog.length).map (fun i => (limit * i, limit)) ∧
  (s.exhausted = true → s.buffer = [] ∧ c = all.length) ∧
  (s.exhausted = false →
    s.offset = c + s.buffer.length ∨
      (c + s.buffer.length = all.length ∧ all.length ≤ s.offset))

end QuerySearchClient

namespace QuerySearchClient

variable {R : Type}

theorem inv_initial (all : List R) (limit : Nat) : Inv all limit 0 (initialState R) := by
  simp [Inv, initialState]

theorem fill_inv (all : List R) (limit c : Nat) (s : QueryState R)
    (hlim : 1 ≤ limit) (h : Inv all limit c s) :
    Inv all limit c (fillBuffer all limit s) := by
  obtain ⟨off, buf, ex, log⟩ := s
  obtain ⟨hbuf, hc, hoff, hlog, hex, hnex⟩ := h
  cases buf with
  | cons x xs => exact ⟨hbuf, hc, hoff, hlog, hex, hnex⟩
  | nil =>
    cases ex with
    | true => exact ⟨hbuf, hc, hoff, hlog, hex, hnex⟩
    | false =>
      have hoffc : off = c ∨ (c = all.length ∧ all.length ≤ off) := by
        rcases hnex rfl with h1 | h1
        · left; simpa using h1
        · right; constructor
          · simpa using h1.1
          · exact h1.2
      have hoffn : off = limit * log.length := hoff
      simp only [fillBuffer, fetchRecords]
      refine ⟨?_, hc, ?_, ?_, ?_, ?_⟩
      · rcases hoffc with rfl | ⟨rfl, hNo⟩
        · rw [List.take_eq_take]
          simp only [List.length_take, List.length_drop]
          omega
        · rw [List.drop_eq_nil_iff.mpr hNo]
          simp
      · show off + limit = limit * (log ++ [(off, limit)]).length
        simp only [List.length_append, List.length_singleton, Nat.mul_succ]
        omega
      · simp only [List.length_append, List.length_singleton]
        rw [List.range_succ, List.map_append]
        simp only [List.map_cons, List.map_nil]
        rw [← hlog, ← hoff]
      · intro hbe
        have hbn : (all.drop off).take limit = [] := by
          simpa [List.isEmpty_iff] using hbe
        refine ⟨hbn, ?_⟩
        rcases hoffc with rfl | ⟨rfl, hNo⟩
        · rcases List.take_eq_nil_iff.mp hbn with h0 | hdn
          · omega
          · have := List.drop_eq_nil_iff.mp hdn
            omega
        · rfl
      · intro hbe
        have hbn : ¬((all.drop off).take limit = []) := by
          simpa [List.isEmpty_iff] using hbe
        rcases hoffc with rfl | ⟨rfl, hNo⟩
        · simp only [List.length_take, List.length_drop]
          by_cases hcase : limit ≤ all.length - off
          · left; omega
          · right; omega
        · exact absurd (by rw [List.drop_eq_nil_iff.mpr hNo]; simp) hbn

theorem fill_buffer_empty_exhausted (all : List R) (limit : Nat) (s : QueryState R)
    (h : (fillBuffer all limit s).buffer = []) :
    (fillBuffer all limit s).exhausted = true := by
  obtain ⟨off, buf, ex, log⟩ := s
  cases buf with
  | cons x xs => exact absurd h (by simp [fillBuffer])
  | nil =>
    cases ex with
    | true => rfl
    | false =>
      simp only [fillBuffer, fetchRecords] at h ⊢
      simp [h]

theorem shift_some (all : List R) (limit c : Nat) (s : QueryState R) (r : R)
    (hlim : 1 ≤ limit) (h : Inv all limit c s)
    (hout : (shift all limit s).1 = some r) :
    Inv all limit (c + 1) (shift all limit s).2 ∧ (all.drop c).head? = some r := by
  have hf := fill_inv all limit c s hlim h
  simp only [shift] at hout ⊢
  obtain ⟨hbuf, hc, hoff, hlog, hex, hnex⟩ := hf
  cases hb : (fillBuffer all limit s).buffer with
  | nil => rw [hb] at hout; cases hout
  | cons x xs =>
    rw [hb] at hout
    have hrx : x = r := by simpa using hout
    rw [hb] at hbuf
    cases hd : all.drop c with
    | nil => rw [hd] at hbuf; simp at hbuf
    | cons y ys =>
      rw [hd] at hbuf
      simp only [List.length_cons, List.take_succ_cons] at hbuf
      have hxy : x = y := (List.cons.injEq .. ▸ hbuf).1
      have hxs : xs = ys.take xs.length := (List.cons.injEq .. ▸ hbuf).2
      have hext : (fillBuffer all limit s).exhausted = false := by
        cases hexv : (fillBuffer all limit s).exhausted with
        | false => rfl
        | true => rw [(hex hexv).1] at hb; cases hb
      have hcN : c < all.length := by
        have : ¬(all.drop c = []) := by rw [hd]; simp
        have := List.drop_eq_nil_iff.not.mp this
        omega
      refine ⟨⟨?_, ?_, ?_, ?_, ?_, ?_⟩, ?_⟩
      · show xs = (all.drop (c + 1)).take xs.length
        have hd1 : all.drop (c + 1) = ys := by
          rw [← List.tail_drop, hd]
          rfl
        rw [hd1]
        exact hxs
      · omega
      · exact hoff
      · exact hlog
      · intro habs
        rw [hext] at habs
        cases habs
      · intro _
        rcases hnex hext with h1 | h1
        · left
          rw [hb] at h1
          simp only [List.length_cons] at h1
          show (fillBuffer all limit s).offset = c + 1 + xs.length
          omega
        · right
          rw [hb] at h1
          simp only [List.length_cons] at h1
          constructor
          · show c + 1 + xs.length = all.length
            omega
          · exact h1.2
      · simp only [List.head?_cons]
        rw [← hxy, hrx]

theorem shift_none (all : List R) (limit c : Nat) (s : QueryState R)
    (hlim : 1 ≤ limit) (h : Inv all limit c s)
    (hout : (shift all limit s).1 = none) :
    Inv all limit c (shift all limit s).2 ∧ c = all.length := by
  have hf := fill_inv all limit c s hlim h
  simp only [shift] at hout ⊢
  have hbe : (fillBuffer all limit s).buffer = [] := by
    cases hbv : (fillBuffer all limit s).buffer with
    | nil => rfl
    | cons a as => rw [hbv] at hout; cases hout
  have hexh := fill_buffer_empty_exhausted all limit s hbe
  obtain ⟨hbuf, hc, hoff, hlog, hex, hnex⟩ := hf
  have hcN := (hex hexh).2
  refine ⟨⟨?_, hc, hoff, hlog, ?_, ?_⟩, hcN⟩
  · show (fillBuffer all limit s).buffer.tail =
      (all.drop c).take (fillBuffer all limit s).buffer.tail.length
    rw [hbe]
    simp
  · intro _
    refine ⟨?_, hcN⟩
    show (fillBuffer all limit s).buffer.tail = []
    rw [hbe]
    rfl
  · intro hfalse
    show (fillBuffer all limit s).offset = c + (fillBuffer all limit s).buffer.tail.length ∨ _
    rw [hexh] at hfalse
    cases hfalse

theorem peek_step (all : List R) (limit c : Nat) (s : QueryState R)
    (hlim : 1 ≤ limit) (h : Inv all limit c s) :
    Inv all limit c (peek all limit s).2 ∧
      ((peek all limit s).1 = none → c = all.length) := by
  simp only [peek]
  refine ⟨fill_inv all limit c s hlim h, ?_⟩
  intro hn
  have hbe : (fillBuffer all limit s).buffer = [] := by
    cases hbv : (fillBuffer all limit s).buffer with
    | nil => rfl
    | cons a as => rw [hbv] at hn; cases hn
  have hexh := fill_buffer_empty_exhausted all limit s hbe
  exact ((fill_inv all limit c s hlim h).2.2.2.2.1 hexh).2

theorem runOps_cons_shift (all : List R) (limit : Nat) (rest : List Bool)
    (s : QueryState R) :
    runOps all limit (true :: rest) s =
      ((true, (shift all limit s).1) ::
          (runOps all limit rest (shift all limit s).2).1,
       (runOps all limit rest (shift all limit s).2).2) := rfl

theorem runOps_cons_peek (all : List R) (limit : Nat) (rest : List Bool)
    (s : QueryState R) :
    runOps all limit (false :: rest) s =
      ((false, (peek all limit s).1) ::
          (runOps all limit rest (peek all limit s).2).1,
       (runOps all limit rest (peek all limit s).2).2) := rfl

theorem shiftHits_cons_shift_some (r : R) (outs : List (Bool × Option R)) :
    shiftHits ((true, some r) :: outs) = r :: shiftHits outs := rfl

theorem shiftHits_cons_shift_none (outs : List (Bool × Option R)) :
    shiftHits ((true, (none : Option R)) :: outs) = shiftHits outs := rfl

theorem shiftHits_cons_peek (o : Option R) (outs : List (Bool × Option R)) :
    shiftHits ((false, o) :: outs) = shiftHits outs := by
  cases o <;> rfl

theorem runOps_inv (all : List R) (limit : Nat) (hlim : 1 ≤ limit) :
    ∀ (ops : List Bool) (s : QueryState R) (c : Nat), Inv all limit c s →
      ∃ cf, Inv all limit cf (runOps all limit ops s).2 ∧ c ≤ cf ∧
        shiftHits (runOps all limit ops s).1 = (all.drop c).take (cf - c) ∧
        ((runOps all limit ops s).1.any (fun p => p.2.isNone) = true →
          cf = all.length) := by
  intro ops
  induction ops with
  | nil =>
    intro s c h
    exact ⟨c, h, Nat.le_refl c, by simp [runOps, shiftHits], by simp [runOps]⟩
  | cons op rest ih =>
    intro s c h
    cases op with
    | true =>
      cases hout : (shift all limit s).1 with
      | some r =>
        have hs := shift_some all limit c s r hlim h hout
        obtain ⟨cf, hInv, hle, hhits, hnone⟩ := ih (shift all limit s).2 (c + 1) hs.1
        refine ⟨cf, ?_, by omega, ?_, ?_⟩
        · rw [runOps_cons_shift]
          exact hInv
        · rw [runOps_cons_shift, hout, shiftHits_cons_shift_some, hhits]
          cases hd : all.drop c with
          | nil => rw [hd] at hs; cases hs.2
          | cons y ys =>
            have hy : y = r := by
              rw [hd] at hs
              simpa using hs.2
            have hys : ys = all.drop (c + 1) := by
              rw [← List.tail_drop, hd]
              rfl
            have harith : cf - c = (cf - (c + 1)) + 1 := by omega
            rw [harith, List.take_succ_cons, hy, hys]
        · rw [runOps_cons_shift, hout]
          intro hany
          simp only [List.any_cons, Option.isNone_some, Bool.false_or] at hany
          exact hnone hany
      | none =>
        have hs := shift_none all limit c s hlim h hout
        obtain ⟨cf, hInv, hle, hhits, hnone⟩ := ih (shift all limit s).2 c hs.1
        have hcfN : cf ≤ all.length := hInv.2.1
        refine ⟨cf, ?_, hle, ?_, ?_⟩
        · rw [runOps_cons_shift]
          exact hInv
        · rw [runOps_cons_shift, hout, shiftHits_cons_shift_none]
          exact hhits
        · intro _
          have hcN := hs.2
          omega
    | false =>
      have hp := peek_step all limit c s hlim h
      obtain ⟨cf, hInv, hle, hhits, hnone⟩ := ih (peek all limit s).2 c hp.1
      have hcfN : cf ≤ all.length := hInv.2.1
      refine ⟨cf, ?_, hle, ?_, ?_⟩
      · rw [runOps_cons_peek]
        exact hInv
      · rw [runOps_cons_peek, shiftHits_cons_peek]
        exact hhits
      · rw [runOps_cons_peek]
        intro hany
        simp only [List.any_cons] at hany
        rcases Bool.or_eq_true_iff.mp hany with h1 | h1
        · have := hp.2 (Option.isNone_iff_eq_none.mp h1)
          omega
        · exact hnone h1

end QuerySearchClient

/-- C2: for every logical result sequence, every batch size of at least
one and every interleaving of `peek` and `shift` calls on a fresh
client, the successful `shift` results are a prefix of the result
sequence in order (no record skipped, duplicated or reordered); once any
call reports none the successful `shift` results are exactly the whole
sequence; and the fetch log is exactly one query with LIMIT equal to the
batch size at each successive multiple of the batch size (for 3 records
with batch size 1, four fetches at offsets 0, 1, 2 and 3 — see the
witness). -/
theorem querySearchClient_cursor_completeness (R : Type) (all : List R) (limit : Nat)
    (ops : List Bool) (hlim : 1 ≤ limit) :
    QuerySearchClient.shiftHits
        (QuerySearchClient.runOps all limit ops (QuerySearchClient.initialState R)).1 =
      all.take (QuerySearchClient.shiftHits
        (QuerySearchClient.runOps all limit ops (QuerySearchClient.initialState R)).1).length ∧
    ((QuerySearchClient.runOps all limit ops (QuerySearchClient.initialState R)).1.any
        (fun p => p.2.isNone) = true →
      QuerySearchClient.shiftHits
        (QuerySearchClient.runOps all limit ops (QuerySearchClient.initialState R)).1 = all) ∧
    (QuerySearchClient.runOps all limit ops (QuerySearchClient.initialState R)).2.fetchLog =
      (List.range
        (QuerySearchClient.runOps all limit ops
          (QuerySearchClient.initialState R)).2.fetchLog.length).map
        (fun i => (limit * i, limit)) := by
  obtain ⟨cf, hInv, hle, hhits, hnone⟩ :=
    QuerySearchClient.runOps_inv all limit hlim ops (QuerySearchClient.initialState R) 0
      (QuerySearchClient.inv_initial all limit)
  simp only [List.drop_zero, Nat.sub_zero] at hhits
  have hcfN : cf ≤ all.length := hInv.2.1
  refine ⟨?_, ?_, hInv.2.2.2.1⟩
  · rw [hhits, List.length_take, List.take_eq_take]
    omega
  · intro hany
    rw [hhits, hnone hany]
    exact List.take_length all

/-- Witness for C2 at the spec's example: 3 records, batch size 1, the
peek-then-shift driving loop; the shift results are the 3 records in
order and the log shows 4 fetches with LIMIT 1 at offsets 0, 1, 2, 3. -/
theorem querySearchClient_cursor_completeness_witness :
    1 ≤ 1 ∧
    (QuerySearchClient.shiftHits
        (QuerySearchClient.runOps [10, 20, 30] 1 [false, true, false, true, false, true, false]
          (QuerySearchClient.initialState Nat)).1 =
      ([10, 20, 30] : List Nat).take (QuerySearchClient.shiftHits
        (QuerySearchClient.runOps [10, 20, 30] 1 [false, true, false, true, false, true, false]
          (QuerySearchClient.initialState Nat)).1).length ∧
    ((QuerySearchClient.runOps [10, 20, 30] 1 [false, true, false, true, false, true, false]
        (QuerySearchClient.initialState Nat)).1.any (fun p => p.2.isNone) = true →
      QuerySearchClient.shiftHits
        (QuerySearchClient.runOps [10, 20, 30] 1 [false, true, false, true, false, true, false]
          (QuerySearchClient.initialState Nat)).1 = [10, 20, 30]) ∧
    (QuerySearchClient.runOps [10, 20, 30] 1 [false, true, false, true, false, true, false]
        (QuerySearchClient.initialState Nat)).2.fetchLog =
      (List.range
        (QuerySearchClient.runOps [10, 20, 30] 1 [false, true, false, true, false, true, false]
          (QuerySearchClient.initialState Nat)).2.fetchLog.length).map
        (fun i => (1 * i, 1))) ∧
    (QuerySearchClient.runOps [10, 20, 30] 1 [false, true, false, true, false, true, false]
        (QuerySearchClient.initialState Nat)).2.fetchLog = [(0, 1), (1, 1), (2, 1), (3, 1)] :=
  ⟨Nat.le_refl 1,
   querySearchClient_cursor_completeness Nat [10, 20, 30] 1
     [false, true, false, true, false, true, false] (Nat.le_refl 1),
   by decide⟩

namespace QuerySearchClient

theorem fill_of_exhausted (all : List R) (limit : Nat) (s : QueryState R)
    (hex : s.exhausted = true) : fillBuffer all limit s = s := by
  obtain ⟨off, buf, ex, log⟩ := s
  cases hex
  cases buf <;> rfl

theorem shift_of_exhausted (all : List R) (limit : Nat) (s : QueryState R)
    (hex : s.exhausted = true) (hbuf : s.buffer = []) :
    shift all limit s = (none, s) := by
  obtain ⟨off, buf, ex, log⟩ := s
  cases hex
  cases hbuf
  rfl

theorem peek_of_exhausted (all : List R) (limit : Nat) (s : QueryState R)
    (hex : s.exhausted = true) (hbuf : s.buffer = []) :
    peek all limit s = (none, s) := by
  obtain ⟨off, buf, ex, log⟩ := s
  cases hex
  cases hbuf
  rfl

end QuerySearchClient

/-- C5: once a fetch has returned an empty batch (the client is
exhausted, with an empty buffer), every subsequent `peek` and `shift`
call — in any order and number — reports none, and the state, in
particular the fetch log, is left completely unchanged: no further store
query is issued. -/
theorem querySearchClient_exhaustion_stable (R : Type) (all : List R) (limit : Nat)
    (ops : List Bool) (s : QuerySearchClient.QueryState R)
    (hex : s.exhausted = true) (hbuf : s.buffer = []) :
    QuerySearchClient.runOps all limit ops s =
      (ops.map (fun op => (op, (none : Option R))), s) := by
  induction ops with
  | nil => rfl
  | cons op rest ih =>
    cases op with
    | true =>
      simp only [QuerySearchClient.runOps_cons_shift,
        QuerySearchClient.shift_of_exhausted all limit s hex hbuf, ih, List.map_cons]
    | false =>
      simp only [QuerySearchClient.runOps_cons_peek,
        QuerySearchClient.peek_of_exhausted all limit s hex hbuf, ih, List.map_cons]

/-- Exhausted client state used by the C5 witness (the state reached
after four LIMIT-1 fetches over a 3-record result). -/
def w5State : QuerySearchClient.QueryState Nat :=
  { offset := 4, buffer := [], exhausted := true,
    fetchLog := [(0, 1), (1, 1), (2, 1), (3, 1)] }

/-- Witness for C5 at a concrete exhausted state: two shifts and a peek
all report none and the state (fetch log included) is unchanged. -/
theorem querySearchClient_exhaustion_stable_witness :
    w5State.exhausted = true ∧ w5State.buffer = [] ∧
    QuerySearchClient.runOps [5, 6, 7] 1 [true, false, true] w5State =
      ([(true, none), (false, none), (true, none)], w5State) :=
  ⟨rfl, rfl,
   querySearchClient_exhaustion_stable Nat [5, 6, 7] 1 [true, false, true] w5State rfl rfl⟩
